import Mathlib

/-!
Shallow embedding of the Blog Tree Admin View component
(`src/unnamed/part_000`, the `BlogAdmin` React component).

The component's local state consists of the search query, the top-level
blog list, the expansion set (`expandedBlogIds : Set<number>`), the
children cache (`subblogs : { [parentId]: BlogData[] }`) and the loading
flags (`loading : { [id]: boolean }`).  Network calls, console logging and
the blocking alert are modelled as an explicit effect trace.  Each async
handler is split at its `await` points: `fetchSubblogs` becomes a start
phase (the loading-flag guard, setting the flag, issuing the GET) and a
settle phase (merging the response or logging the error, clearing the
flag in the `finally` block).
-/

namespace ZineBlogAdmin

/-- `createdAt: { seconds, nanoseconds }` of the `BlogData` interface. -/
structure Timestamp where
  seconds : Int
  nanoseconds : Int
deriving DecidableEq, Repr

/-- The `BlogData` interface: `blogID`, `blogName`, `createdAt`,
optional `featured`, optional `parentId`. -/
structure BlogData where
  blogID : Int
  blogName : String
  createdAt : Timestamp
  featured : Option Bool
  parentId : Option Int
deriving DecidableEq, Repr

/-- Backend HTTP requests the component can issue:
`GET /blog?id={id}` and `DELETE /blog { blogIds }`. -/
inductive Request where
  | getBlog (id : Int)
  | deleteBlog (ids : List Int)
deriving DecidableEq, Repr

/-- Observable effects: an HTTP request, a `console.error` log, or a
blocking `alert`. -/
inductive Effect where
  | request (r : Request)
  | logError (msg : String)
  | alert (msg : String)
deriving DecidableEq, Repr

/-- JS object property read `m[k]`: first binding of key `k`, if any. -/
def getKey {α : Type} : List (Int × α) → Int → Option α
  | [], _ => none
  | (k', v') :: rest, k => if k' = k then some v' else getKey rest k

/-- JS object spread update `{ ...m, [k]: v }`: replace the binding of
`k`, or append it if absent. -/
def setKey {α : Type} : List (Int × α) → Int → α → List (Int × α)
  | [], k, v => [(k, v)]
  | (k', v') :: rest, k, v =>
      if k' = k then (k, v) :: rest else (k', v') :: setKey rest k v

/-- The component's local state (the five `useState` hooks). -/
structure AdminState where
  searchQuery : String
  blogs : List BlogData
  expandedBlogIds : List Int
  subblogs : List (Int × List BlogData)
  loading : List (Int × Bool)
deriving DecidableEq, Repr

/-- `loading[id]` as a truthy test: absent keys read as `false`. -/
def lookupLoading (m : List (Int × Bool)) (id : Int) : Bool :=
  (getKey m id).getD false

/-- Initial state of the five hooks. -/
def initState : AdminState :=
  { searchQuery := "", blogs := [], expandedBlogIds := [], subblogs := [],
    loading := [] }

/-- `Set.delete(x)` on the expansion set (modelled as a duplicate-free
list): remove every occurrence of `x`. -/
def deleteId (l : List Int) (x : Int) : List Int :=
  l.filter (fun y => y != x)

/-- First half of `fetchSubblogs(parentId)`, up to the `await api.get`:
if `loading[parentId]` is truthy, return at once; otherwise set the
loading flag and issue `GET /blog?id=parentId`. -/
def fetchSubblogsStart (st : AdminState) (parentId : Int) :
    AdminState × List Effect :=
  if lookupLoading st.loading parentId then (st, [])
  else
    ({ st with loading := setKey st.loading parentId true },
     [Effect.request (Request.getBlog parentId)])

/-- Second half of `fetchSubblogs(parentId)`, after the `await` settles.
On success the fetched children are merged into `subblogs[parentId]`,
each child's `parentId` overwritten with the fetch key; on failure the
error is logged.  The `finally` block clears `loading[parentId]` in
both cases. -/
def fetchSubblogsSettle (st : AdminState) (parentId : Int)
    (result : Option (List BlogData)) : AdminState × List Effect :=
  match result with
  | some fetched =>
      ({ st with
          subblogs := setKey st.subblogs parentId
            (fetched.map (fun blog => { blog with parentId := some parentId })),
          loading := setKey st.loading parentId false }, [])
  | none =>
      ({ st with loading := setKey st.loading parentId false },
       [Effect.logError "Error fetching subblogs:"])

/-- `toggleExpand(blog)`: if `blog.blogID` is in the expansion set,
delete it (no network call); otherwise add it and call
`fetchSubblogs(blog.blogID)` (whose synchronous prefix runs here). -/
def toggleExpand (st : AdminState) (blog : BlogData) :
    AdminState × List Effect :=
  let parentId := blog.blogID
  if parentId ∈ st.expandedBlogIds then
    ({ st with expandedBlogIds := deleteId st.expandedBlogIds parentId }, [])
  else
    fetchSubblogsStart
      { st with expandedBlogIds := parentId :: st.expandedBlogIds } parentId

/-- The request issued by `fetchBlogs()`: `GET /blog?id=-1`. -/
def fetchBlogsRequest : Effect := Effect.request (Request.getBlog (-1))

/-- Settling of `fetchBlogs()`: on success the top-level list is
replaced; on failure the error is logged and the state is unchanged
(the error is swallowed, so `fetchBlogs` itself never throws). -/
def fetchBlogsSettle (st : AdminState) (result : Option (List BlogData)) :
    AdminState × List Effect :=
  match result with
  | some bs => ({ st with blogs := bs }, [])
  | none => (st, [Effect.logError "Error fetching blogs:"])

/-- `handleDelete(id)`.  `confirmed` is the outcome of `window.confirm`;
`deleteOk` whether `await api.delete` succeeds; `fetchResult` the
outcome of the `await fetchBlogs()` that follows a successful delete.
On a successful delete the top-level list is refetched and then
`subblogs` and `expandedBlogIds` are cleared; on failure the error is
logged and a blocking alert is shown. -/
def handleDelete (st : AdminState) (id : Int) (confirmed : Bool)
    (deleteOk : Bool) (fetchResult : Option (List BlogData)) :
    AdminState × List Effect :=
  if confirmed then
    if deleteOk then
      let settled := fetchBlogsSettle st fetchResult
      ({ settled.1 with subblogs := [], expandedBlogIds := [] },
       Effect.request (Request.deleteBlog [id]) :: fetchBlogsRequest ::
         settled.2)
    else
      (st,
       [Effect.request (Request.deleteBlog [id]),
        Effect.logError "Error deleting blog:",
        Effect.alert "Failed to delete blog"])
  else (st, [])

/-- `Char.toLowerCase` applied characterwise, the model of JS
`String.prototype.toLowerCase` on the names this component handles. -/
def lowerChars (s : String) : List Char :=
  s.toList.map Char.toLower

/-- Does `cs` start with `sub`? (helper for substring containment). -/
def charsStartWith : List Char → List Char → Bool
  | _, [] => true
  | [], _ :: _ => false
  | c :: cs, d :: ds => c == d && charsStartWith cs ds

/-- JS `String.prototype.includes` on character lists: `sub` occurs
contiguously somewhere in `cs`. -/
def charsInclude : List Char → List Char → Bool
  | [], sub => sub.isEmpty
  | c :: cs, sub => charsStartWith (c :: cs) sub || charsInclude cs sub

/-- The `filteredBlogs` computation: keep the top-level blogs whose
lower-cased name contains the lower-cased query.  (`blog?.blogName || ''`
is the identity here: `blogName` is total in the model, and `s || ''`
evaluates to `s` on nonempty `s` and to `''` on empty `s`.) -/
def filteredBlogs (blogs : List BlogData) (searchQuery : String) :
    List BlogData :=
  blogs.filter (fun blog =>
    charsInclude (lowerChars blog.blogName) (lowerChars searchQuery))

/-- `BlogRow` flattened to the list of rendered rows `(blog, level)`.
`fuel` bounds the recursion depth (the source recursion is unbounded;
any `fuel` at least the tree height yields the full rendering).  A row
renders its cached children exactly when it is expanded and
`subblogs[blog.blogID]?.length > 0`. -/
def renderRows (eids : List Int) (sub : List (Int × List BlogData)) :
    Nat → BlogData → Nat → List (BlogData × Nat)
  | 0, blog, level => [(blog, level)]
  | fuel + 1, blog, level =>
      let isExpanded := decide (blog.blogID ∈ eids)
      let children := (getKey sub blog.blogID).getD []
      let hasSubblogs := decide (0 < children.length)
      (blog, level) ::
        (if isExpanded && hasSubblogs then
          children.flatMap (fun sb => renderRows eids sub fuel sb (level + 1))
         else [])

/-- The whole table body: each (search-filtered) top-level blog rendered
at level 0. -/
def renderTable (st : AdminState) (fuel : Nat) : List (BlogData × Nat) :=
  (filteredBlogs st.blogs st.searchQuery).flatMap
    (fun blog => renderRows st.expandedBlogIds st.subblogs fuel blog 0)

/-- One user/network event of the component's event loop. -/
inductive Step where
  | setQuery (q : String)
  | toggle (blog : BlogData)
  | settleSub (parentId : Int) (result : Option (List BlogData))
  | settleTop (result : Option (List BlogData))
  | deleteOp (id : Int) (confirmed deleteOk : Bool)
      (fetchResult : Option (List BlogData))
deriving DecidableEq, Repr

/-- State transition of one step. -/
def stepState (st : AdminState) : Step → AdminState
  | Step.setQuery q => { st with searchQuery := q }
  | Step.toggle blog => (toggleExpand st blog).1
  | Step.settleSub parentId result => (fetchSubblogsSettle st parentId result).1
  | Step.settleTop result => (fetchBlogsSettle st result).1
  | Step.deleteOp id confirmed deleteOk fetchResult =>
      (handleDelete st id confirmed deleteOk fetchResult).1

/-- Effects emitted by one step. -/
def stepEffects (st : AdminState) : Step → List Effect
  | Step.setQuery _ => []
  | Step.toggle blog => (toggleExpand st blog).2
  | Step.settleSub parentId result => (fetchSubblogsSettle st parentId result).2
  | Step.settleTop result => (fetchBlogsSettle st result).2
  | Step.deleteOp id confirmed deleteOk fetchResult =>
      (handleDelete st id confirmed deleteOk fetchResult).2

/-- The state reached from the initial state by a list of steps. -/
def run (steps : List Step) : AdminState :=
  steps.foldl stepState initState

/-- The cache/parent agreement invariant: every node stored under cache
key `p` carries `parentId = p`. -/
def cacheParentInv (st : AdminState) : Prop :=
  ∀ p l, (p, l) ∈ st.subblogs → ∀ b ∈ l, b.parentId = some p

/-- Number of occurrences of request `r` in an effect trace. -/
def countReq (effs : List Effect) (r : Request) : Nat :=
  (effs.filter (fun e => decide (e = Effect.request r))).length

/-- A fixed timestamp for sample data. -/
def ts0 : Timestamp := ⟨0, 0⟩

/-- Sample top-level blog named "Zine Robotics". -/
def blogA : BlogData := ⟨1, "Zine Robotics", ts0, none, none⟩

/-- Sample top-level blog named "Blog". -/
def blogB : BlogData := ⟨2, "Blog", ts0, none, none⟩

/-- Sample child blog cached under parent 1. -/
def childC : BlogData := ⟨3, "Child", ts0, none, some 1⟩

/-- Sample state: blog 1 is expanded and its children are cached. -/
def cachedState : AdminState :=
  { searchQuery := "", blogs := [blogA, blogB], expandedBlogIds := [1],
    subblogs := [(1, [childC])], loading := [] }

/-- Sample state: a child fetch for blog 1 is in flight. -/
def loadingState : AdminState :=
  { searchQuery := "", blogs := [blogA, blogB], expandedBlogIds := [],
    subblogs := [], loading := [(1, true)] }

theorem getKey_setKey {α : Type} (m : List (Int × α)) (k id : Int) (v : α) :
    getKey (setKey m k v) id = if k = id then some v else getKey m id := by
  induction m with
  | nil => simp [setKey, getKey]
  | cons p rest ih =>
      obtain ⟨k', v'⟩ := p
      by_cases hk : k' = k <;> by_cases hid : k' = id <;>
        simp_all [setKey, getKey]
      rw [if_neg fun h => hk h.symm]

theorem lookupLoading_setKey (m : List (Int × Bool)) (k id : Int) (b : Bool) :
    lookupLoading (setKey m k b) id =
      if k = id then b else lookupLoading m id := by
  unfold lookupLoading
  rw [getKey_setKey]
  by_cases h : k = id
  · simp [h]
  · simp [h]

theorem not_mem_deleteId (l : List Int) (x : Int) : x ∉ deleteId l x := by
  simp [deleteId, List.mem_filter]

theorem mem_setKey {α : Type} (m : List (Int × α)) (k : Int) (v : α)
    (p : Int × α) (h : p ∈ setKey m k v) : p = (k, v) ∨ p ∈ m := by
  induction m with
  | nil =>
      simp only [setKey, List.mem_singleton] at h
      exact Or.inl h
  | cons q rest ih =>
      obtain ⟨k', v'⟩ := q
      by_cases hk : k' = k
      · rw [setKey, if_pos hk] at h
        rcases List.mem_cons.mp h with h1 | h1
        · exact Or.inl h1
        · exact Or.inr (List.mem_cons_of_mem _ h1)
      · rw [setKey, if_neg hk] at h
        rcases List.mem_cons.mp h with h1 | h1
        · exact Or.inr (List.mem_cons.mpr (Or.inl h1))
        · rcases ih h1 with h2 | h2
          · exact Or.inl h2
          · exact Or.inr (List.mem_cons_of_mem _ h2)

theorem renderRows_self_mem (eids : List Int) (sub : List (Int × List BlogData))
    (fuel : Nat) (blog : BlogData) (level : Nat) :
    (blog, level) ∈ renderRows eids sub fuel blog level := by
  cases fuel <;> simp [renderRows]

theorem renderRows_child_mem (eids : List Int) (sub : List (Int × List BlogData))
    (blog c : BlogData) (l : List BlogData) (lvl fuel : Nat)
    (h1 : blog.blogID ∈ eids) (h2 : getKey sub blog.blogID = some l)
    (h3 : c ∈ l) :
    (c, lvl + 1) ∈ renderRows eids sub (fuel + 1) blog lvl := by
  have hch : (getKey sub blog.blogID).getD [] = l := by rw [h2]; rfl
  have hlen : 0 < l.length := List.length_pos.mpr (List.ne_nil_of_mem h3)
  simp only [renderRows, hch, h1, hlen, decide_eq_true_eq, List.mem_cons]
  right
  exact List.mem_flatMap.mpr ⟨c, h3, renderRows_self_mem _ _ _ _ _⟩

theorem toggleExpand_subblogs (st : AdminState) (blog : BlogData) :
    (toggleExpand st blog).1.subblogs = st.subblogs := by
  unfold toggleExpand fetchSubblogsStart
  by_cases h : blog.blogID ∈ st.expandedBlogIds
  · simp [h]
  · by_cases h2 : lookupLoading st.loading blog.blogID
    · simp [h, h2]
    · simp [h, h2]

theorem cacheParentInv_step (st : AdminState) (s : Step)
    (h : cacheParentInv st) : cacheParentInv (stepState st s) := by
  cases s with
  | setQuery q => exact h
  | settleTop result => cases result <;> exact h
  | toggle blog =>
      intro p l hp
      rw [stepState, toggleExpand_subblogs] at hp
      exact h p l hp
  | settleSub parentId result =>
      cases result with
      | none => exact h
      | some fetched =>
          intro p l hp b hb
          have hp' : (p, l) ∈ setKey st.subblogs parentId
              (fetched.map (fun blog => { blog with parentId := some parentId })) := hp
          rcases mem_setKey _ _ _ _ hp' with h1 | h1
          · have hpp : p = parentId := congrArg Prod.fst h1
            have hll : l = fetched.map
                (fun blog => { blog with parentId := some parentId }) :=
              congrArg Prod.snd h1
            subst hpp
            subst hll
            rcases List.mem_map.mp hb with ⟨a, _, rfl⟩
            rfl
          · exact h p l h1 b hb
  | deleteOp id confirmed deleteOk fetchResult =>
      cases confirmed with
      | false => exact h
      | true =>
          cases deleteOk with
          | false => exact h
          | true =>
              intro p l hp
              exact absurd hp (List.not_mem_nil _)

theorem cacheParentInv_foldl (steps : List Step) :
    ∀ st, cacheParentInv st → cacheParentInv (steps.foldl stepState st) := by
  induction steps with
  | nil => intro st h; exact h
  | cons s rest ih =>
      intro st h
      exact ih _ (cacheParentInv_step st s h)

/-- C1, counterexample: in `cachedState` the children of blog 1 are
already present in the cache, yet collapsing blog 1 (which issues no
request) and expanding it again issues a fresh child fetch keyed by 1 —
`toggleExpand` never consults the cache, only the loading flag. -/
theorem c1_counterexample :
    getKey cachedState.subblogs blogA.blogID = some [childC] ∧
    (toggleExpand cachedState blogA).2 = [] ∧
    (toggleExpand (toggleExpand cachedState blogA).1 blogA).2 =
      [Effect.request (Request.getBlog blogA.blogID)] := by decide

/-- C1, amended: for every node that is currently expanded and has no
child fetch in flight, collapsing it issues no request, and expanding it
again issues exactly one new child fetch keyed by its id — whether or
not its children are already cached, since the cache is never consulted. -/
theorem c1_reexpand_refetches (st : AdminState) (blog : BlogData)
    (h1 : blog.blogID ∈ st.expandedBlogIds)
    (h2 : lookupLoading st.loading blog.blogID = false) :
    (toggleExpand st blog).2 = [] ∧
    (toggleExpand (toggleExpand st blog).1 blog).2 =
      [Effect.request (Request.getBlog blog.blogID)] := by
  constructor
  · unfold toggleExpand
    simp [h1]
  · have hcol : (toggleExpand st blog).1 =
        { st with expandedBlogIds := deleteId st.expandedBlogIds blog.blogID } := by
      unfold toggleExpand
      simp [h1]
    rw [hcol]
    unfold toggleExpand fetchSubblogsStart
    have hnm : blog.blogID ∉ deleteId st.expandedBlogIds blog.blogID :=
      not_mem_deleteId _ _
    simp [hnm, h2]

/-- Witness for C1's amended theorem at `cachedState` and blog 1. -/
theorem c1_witness :
    (blogA.blogID ∈ cachedState.expandedBlogIds ∧
     lookupLoading cachedState.loading blogA.blogID = false) ∧
    ((toggleExpand cachedState blogA).2 = [] ∧
     (toggleExpand (toggleExpand cachedState blogA).1 blogA).2 =
       [Effect.request (Request.getBlog blogA.blogID)]) :=
  ⟨⟨by decide, by decide⟩,
   c1_reexpand_refetches cachedState blogA (by decide) (by decide)⟩

/-- C2: toggling a node whose id is in the expansion set deletes the id
from the set and issues no effect at all; toggling a node whose id is
not in the set always adds it — when the node's loading flag is not
set, exactly one child fetch keyed by the node's id is issued, and when
a fetch for the id is already in flight, the id is still added but no
fetch (indeed no effect) is issued. -/
theorem c2_toggle_contract (st st' st'' : AdminState) (blog : BlogData)
    (h1 : blog.blogID ∈ st.expandedBlogIds)
    (h2 : blog.blogID ∉ st'.expandedBlogIds)
    (h3 : lookupLoading st'.loading blog.blogID = false)
    (h4 : blog.blogID ∉ st''.expandedBlogIds)
    (h5 : lookupLoading st''.loading blog.blogID = true) :
    ((toggleExpand st blog).1.expandedBlogIds =
        deleteId st.expandedBlogIds blog.blogID ∧
     blog.blogID ∉ (toggleExpand st blog).1.expandedBlogIds ∧
     (toggleExpand st blog).2 = []) ∧
    (blog.blogID ∈ (toggleExpand st' blog).1.expandedBlogIds ∧
     (toggleExpand st' blog).2 =
       [Effect.request (Request.getBlog blog.blogID)]) ∧
    (blog.blogID ∈ (toggleExpand st'' blog).1.expandedBlogIds ∧
     (toggleExpand st'' blog).2 = []) := by
  refine ⟨⟨?_, ?_, ?_⟩, ⟨?_, ?_⟩, ⟨?_, ?_⟩⟩
  · unfold toggleExpand
    simp [h1]
  · unfold toggleExpand
    simp only [if_pos h1]
    exact not_mem_deleteId _ _
  · unfold toggleExpand
    simp [h1]
  · unfold toggleExpand fetchSubblogsStart
    simp [h2, h3]
  · unfold toggleExpand fetchSubblogsStart
    simp [h2, h3]
  · unfold toggleExpand fetchSubblogsStart
    simp [h4, h5]
  · unfold toggleExpand fetchSubblogsStart
    simp [h4, h5]

/-- Witness for C2 at `cachedState` (id 1 expanded), `initState`
(id 1 not expanded, no fetch in flight) and `loadingState` (id 1 not
expanded, fetch for id 1 in flight). -/
theorem c2_witness :
    (blogA.blogID ∈ cachedState.expandedBlogIds ∧
     blogA.blogID ∉ initState.expandedBlogIds ∧
     lookupLoading initState.loading blogA.blogID = false ∧
     blogA.blogID ∉ loadingState.expandedBlogIds ∧
     lookupLoading loadingState.loading blogA.blogID = true) ∧
    (((toggleExpand cachedState blogA).1.expandedBlogIds =
        deleteId cachedState.expandedBlogIds blogA.blogID ∧
      blogA.blogID ∉ (toggleExpand cachedState blogA).1.expandedBlogIds ∧
      (toggleExpand cachedState blogA).2 = []) ∧
     (blogA.blogID ∈ (toggleExpand initState blogA).1.expandedBlogIds ∧
      (toggleExpand initState blogA).2 =
        [Effect.request (Request.getBlog blogA.blogID)]) ∧
     (blogA.blogID ∈ (toggleExpand loadingState blogA).1.expandedBlogIds ∧
      (toggleExpand loadingState blogA).2 = [])) :=
  ⟨⟨by decide, by decide, by decide, by decide, by decide⟩,
   c2_toggle_contract cachedState initState loadingState blogA (by decide)
     (by decide) (by decide) (by decide) (by decide)⟩

/-- C3: expanding a not-yet-expanded node with no fetch in flight issues
exactly one child fetch keyed by the node's id and raises the node's
loading flag; while the loading flag is set, a further expand attempt
(`fetchSubblogs`) is a complete no-op: no state change and no fetch. -/
theorem c3_expand_single_fetch (st st' : AdminState) (blog : BlogData)
    (h1 : lookupLoading st.loading blog.blogID = false)
    (h2 : blog.blogID ∉ st.expandedBlogIds)
    (h3 : lookupLoading st'.loading blog.blogID = true) :
    (toggleExpand st blog).2 = [Effect.request (Request.getBlog blog.blogID)] ∧
    lookupLoading (toggleExpand st blog).1.loading blog.blogID = true ∧
    fetchSubblogsStart st' blog.blogID = (st', []) := by
  refine ⟨?_, ?_, ?_⟩
  · unfold toggleExpand fetchSubblogsStart
    simp [h2, h1]
  · unfold toggleExpand fetchSubblogsStart
    simp only [if_neg h2]
    simp [h1, lookupLoading_setKey]
  · unfold fetchSubblogsStart
    simp [h3]

/-- Witness for C3 at `initState` (nothing in flight) and
`loadingState` (a fetch for id 1 in flight). -/
theorem c3_witness :
    (lookupLoading initState.loading blogA.blogID = false ∧
     blogA.blogID ∉ initState.expandedBlogIds ∧
     lookupLoading loadingState.loading blogA.blogID = true) ∧
    ((toggleExpand initState blogA).2 =
       [Effect.request (Request.getBlog blogA.blogID)] ∧
     lookupLoading (toggleExpand initState blogA).1.loading blogA.blogID = true ∧
     fetchSubblogsStart loadingState blogA.blogID = (loadingState, [])) :=
  ⟨⟨by decide, by decide, by decide⟩,
   c3_expand_single_fetch initState loadingState blogA (by decide) (by decide)
     (by decide)⟩

/-- C4: without user confirmation `handleDelete` does nothing at all;
after a confirmed, successful delete the expansion set and the children
cache are both empty and exactly one fresh top-level fetch
(`GET /blog?id=-1`) has been issued, whatever that refetch returns. -/
theorem c4_delete_reset (st : AdminState) (id : Int) (dOk : Bool)
    (fr fr' : Option (List BlogData)) :
    handleDelete st id false dOk fr = (st, []) ∧
    (handleDelete st id true true fr').1.expandedBlogIds = [] ∧
    (handleDelete st id true true fr').1.subblogs = [] ∧
    countReq (handleDelete st id true true fr').2 (Request.getBlog (-1)) = 1 := by
  refine ⟨?_, ?_, ?_, ?_⟩
  · simp [handleDelete]
  · simp [handleDelete]
  · simp [handleDelete]
  · cases fr' <;>
      simp [handleDelete, fetchBlogsSettle, fetchBlogsRequest, countReq]

/-- C6: when the user confirms but the delete request fails, the state
is returned unchanged — same expansion set, children cache and
top-level list — the error is logged and surfaced via a blocking
alert, and no top-level refetch is issued. -/
theorem c6_delete_failure_unchanged (st : AdminState) (id : Int)
    (fr : Option (List BlogData)) :
    handleDelete st id true false fr =
      (st, [Effect.request (Request.deleteBlog [id]),
            Effect.logError "Error deleting blog:",
            Effect.alert "Failed to delete blog"]) ∧
    countReq (handleDelete st id true false fr).2 (Request.getBlog (-1)) = 0 := by
  constructor
  · simp [handleDelete]
  · simp [handleDelete, countReq]

/-- C7: when the child fetch for an expanded node fails, the node's id
stays in the expansion set, the children cache is unchanged (no entry
is added), the only effect is the logged error — in particular no
retry fetch is issued. -/
theorem c7_fetch_failure (st : AdminState) (parentId : Int)
    (h : parentId ∈ st.expandedBlogIds) :
    parentId ∈ (fetchSubblogsSettle st parentId none).1.expandedBlogIds ∧
    (fetchSubblogsSettle st parentId none).1.subblogs = st.subblogs ∧
    (fetchSubblogsSettle st parentId none).2 =
      [Effect.logError "Error fetching subblogs:"] :=
  ⟨h, rfl, rfl⟩

/-- Witness for C7 at `cachedState` with node 1 expanded. -/
theorem c7_witness :
    (1 : Int) ∈ cachedState.expandedBlogIds ∧
    ((1 : Int) ∈ (fetchSubblogsSettle cachedState 1 none).1.expandedBlogIds ∧
     (fetchSubblogsSettle cachedState 1 none).1.subblogs = cachedState.subblogs ∧
     (fetchSubblogsSettle cachedState 1 none).2 =
       [Effect.logError "Error fetching subblogs:"]) :=
  ⟨by decide, c7_fetch_failure cachedState 1 (by decide)⟩

/-- C5: `filteredBlogs` returns a subsequence of the top-level list,
containing exactly the blogs whose lower-cased name contains the
lower-cased query as a substring; "zine" matches "Zine Robotics" and
not "Blog"; and the renderer places every cached child of an expanded
node in the output without any query-dependent filtering. -/
theorem c5_search_filter (blogs : List BlogData) (q : String) (b : BlogData)
    (eids : List Int) (sub : List (Int × List BlogData)) (blog c : BlogData)
    (l : List BlogData) (lvl fuel : Nat)
    (h1 : blog.blogID ∈ eids) (h2 : getKey sub blog.blogID = some l)
    (h3 : c ∈ l) :
    List.Sublist (filteredBlogs blogs q) blogs ∧
    (b ∈ filteredBlogs blogs q ↔
      b ∈ blogs ∧ charsInclude (lowerChars b.blogName) (lowerChars q) = true) ∧
    charsInclude (lowerChars "Zine Robotics") (lowerChars "zine") = true ∧
    charsInclude (lowerChars "Blog") (lowerChars "zine") = false ∧
    (c, lvl + 1) ∈ renderRows eids sub (fuel + 1) blog lvl := by
  refine ⟨List.filter_sublist _, ?_, by decide, by decide,
    renderRows_child_mem eids sub blog c l lvl fuel h1 h2 h3⟩
  simp [filteredBlogs, List.mem_filter]

/-- Witness for C5: blogs ["Zine Robotics", "Blog"], query "zine",
node 1 expanded with cached child `childC`. -/
theorem c5_witness :
    (blogA.blogID ∈ cachedState.expandedBlogIds ∧
     getKey cachedState.subblogs blogA.blogID = some [childC] ∧
     childC ∈ [childC]) ∧
    (List.Sublist (filteredBlogs [blogA, blogB] "zine") [blogA, blogB] ∧
     (blogA ∈ filteredBlogs [blogA, blogB] "zine" ↔
       blogA ∈ [blogA, blogB] ∧
       charsInclude (lowerChars blogA.blogName) (lowerChars "zine") = true) ∧
     charsInclude (lowerChars "Zine Robotics") (lowerChars "zine") = true ∧
     charsInclude (lowerChars "Blog") (lowerChars "zine") = false ∧
     (childC, 0 + 1) ∈ renderRows cachedState.expandedBlogIds
       cachedState.subblogs (2 + 1) blogA 0) :=
  ⟨⟨by decide, by decide, by decide⟩,
   c5_search_filter [blogA, blogB] "zine" blogA cachedState.expandedBlogIds
     cachedState.subblogs blogA childC [childC] 0 2 (by decide) (by decide)
     (by decide)⟩

/-- C8: the loading flag lifecycle — settling a child fetch for an id
(success or failure) always leaves that id's loading flag false, and
the only event that turns an id's loading flag from false to true is
one that issues a child fetch request for exactly that id. -/
theorem c8_loading_lifecycle (st st2 : AdminState) (s : Step) (id : Int)
    (r : Option (List BlogData))
    (h1 : lookupLoading st2.loading id = false)
    (h2 : lookupLoading (stepState st2 s).loading id = true) :
    lookupLoading (fetchSubblogsSettle st id r).1.loading id = false ∧
    Effect.request (Request.getBlog id) ∈ stepEffects st2 s := by
  constructor
  · cases r <;> simp [fetchSubblogsSettle, lookupLoading_setKey]
  · cases s with
    | setQuery q => exact absurd (h1.symm.trans h2) Bool.false_ne_true
    | settleTop result =>
        cases result <;> exact absurd (h1.symm.trans h2) Bool.false_ne_true
    | deleteOp did confirmed deleteOk fetchResult =>
        cases confirmed <;> cases deleteOk <;> cases fetchResult <;>
          exact absurd (h1.symm.trans h2) Bool.false_ne_true
    | settleSub parentId result =>
        have hset : lookupLoading (stepState st2 (Step.settleSub parentId result)).loading id =
            if parentId = id then false else lookupLoading st2.loading id := by
          cases result <;>
            simp [stepState, fetchSubblogsSettle, lookupLoading_setKey]
        rw [hset] at h2
        by_cases hp : parentId = id
        · rw [if_pos hp] at h2
          exact absurd h2 Bool.false_ne_true
        · rw [if_neg hp] at h2
          exact absurd (h1.symm.trans h2) Bool.false_ne_true
    | toggle blog =>
        by_cases hm : blog.blogID ∈ st2.expandedBlogIds
        · have hun : (stepState st2 (Step.toggle blog)).loading = st2.loading := by
            simp [stepState, toggleExpand, hm]
          rw [hun] at h2
          exact absurd (h1.symm.trans h2) Bool.false_ne_true
        · by_cases hl : lookupLoading st2.loading blog.blogID = true
          · have hun : (stepState st2 (Step.toggle blog)).loading = st2.loading := by
              simp [stepState, toggleExpand, fetchSubblogsStart, hm, hl]
            rw [hun] at h2
            exact absurd (h1.symm.trans h2) Bool.false_ne_true
          · have hl' : lookupLoading st2.loading blog.blogID = false :=
              Bool.not_eq_true _ ▸ Bool.of_not_eq_true hl
            have hload : (stepState st2 (Step.toggle blog)).loading =
                setKey st2.loading blog.blogID true := by
              simp [stepState, toggleExpand, fetchSubblogsStart, hm, hl']
            rw [hload, lookupLoading_setKey] at h2
            by_cases hid : blog.blogID = id
            · have heff : stepEffects st2 (Step.toggle blog) =
                  [Effect.request (Request.getBlog blog.blogID)] := by
                simp [stepEffects, toggleExpand, fetchSubblogsStart, hm, hl']
              rw [heff, hid]
              exact List.mem_singleton.mpr rfl
            · rw [if_neg hid] at h2
              exact absurd (h1.symm.trans h2) Bool.false_ne_true

/-- Witness for C8: in `initState` the flag of id 1 is false; toggling
blog 1 turns it true and the step's effects contain the child fetch for
id 1; settling always clears the flag. -/
theorem c8_witness :
    (lookupLoading initState.loading 1 = false ∧
     lookupLoading (stepState initState (Step.toggle blogA)).loading 1 = true) ∧
    (lookupLoading (fetchSubblogsSettle initState 1 none).1.loading 1 = false ∧
     Effect.request (Request.getBlog 1) ∈
       stepEffects initState (Step.toggle blogA)) :=
  ⟨⟨by decide, by decide⟩,
   c8_loading_lifecycle initState initState (Step.toggle blogA) 1 none
     (by decide) (by decide)⟩

/-- C9: settling a child fetch for an expanded node with the empty list
leaves the node in the expansion set, stores the empty sequence under
its id in the cache, and the (total) row renderer then yields exactly
the node's own row — no child rows and no failure — at every depth
bound. -/
theorem c9_empty_children (st : AdminState) (pid : Int) (blog : BlogData)
    (lvl fuel : Nat) (h1 : pid ∈ st.expandedBlogIds) (h2 : blog.blogID = pid) :
    pid ∈ (fetchSubblogsSettle st pid (some [])).1.expandedBlogIds ∧
    getKey (fetchSubblogsSettle st pid (some [])).1.subblogs pid = some [] ∧
    renderRows (fetchSubblogsSettle st pid (some [])).1.expandedBlogIds
      (fetchSubblogsSettle st pid (some [])).1.subblogs fuel blog lvl =
      [(blog, lvl)] := by
  refine ⟨h1, ?_, ?_⟩
  · simp [fetchSubblogsSettle, getKey_setKey]
  · cases fuel with
    | zero => rfl
    | succ n =>
        have hch : getKey (fetchSubblogsSettle st pid (some [])).1.subblogs
            blog.blogID = some [] := by
          rw [h2]
          simp [fetchSubblogsSettle, getKey_setKey]
        simp [renderRows, hch]

/-- Witness for C9 at `cachedState`, node 1, rendering blog 1. -/
theorem c9_witness :
    ((1 : Int) ∈ cachedState.expandedBlogIds ∧ blogA.blogID = 1) ∧
    ((1 : Int) ∈ (fetchSubblogsSettle cachedState 1 (some [])).1.expandedBlogIds ∧
     getKey (fetchSubblogsSettle cachedState 1 (some [])).1.subblogs 1 =
       some [] ∧
     renderRows (fetchSubblogsSettle cachedState 1 (some [])).1.expandedBlogIds
       (fetchSubblogsSettle cachedState 1 (some [])).1.subblogs 3 blogA 0 =
       [(blogA, 0)]) :=
  ⟨⟨by decide, by decide⟩,
   c9_empty_children cachedState 1 blogA 0 3 (by decide) (by decide)⟩

/-- C10: in every state reachable from the initial state, each node
stored in the children cache under key `p` has `parentId = p` — the
merge step overwrites each fetched child's `parentId` with the key it
was fetched under, and no other operation writes to the cache. -/
theorem c10_cache_parent_agreement (steps : List Step) :
    cacheParentInv (run steps) := by
  unfold run
  apply cacheParentInv_foldl
  intro p l hp
  exact absurd hp (List.not_mem_nil _)

end ZineBlogAdmin
